import Mathlib

/-
Verification of the flopy repository against its specification.

Shallow embedding of:
  - flopy/modflow/mfzon.py      (ModflowZon: __init__, write_file, load)
  - autotest/t035_test.py       (zone-budget test functions)
  - flopy/mf6/modflow/mfgwfriv.py (ModflowGwfriv.dfn definition table)

Files are modelled as lists of newline-stripped lines, each line a list of
characters.  Python exceptions are modelled with Except; the error value
carries the model state at the point of raising, so that partial-failure
claims can be stated.
-/

namespace Flopy

/-- A line of a text file, without its trailing newline character. -/
abbrev Line := List Char

/-- Whitespace characters recognised by Python str.split() (ASCII subset). -/
def isWs (c : Char) : Bool := c = ' ' || c = '\t' || c = '\n' || c = '\r'

/-- Python `line.strip().split()`: whitespace-separated tokens, with empty
tokens dropped. -/
def tokens (l : Line) : List Line :=
  (l.splitOnP isWs).filter (fun t => t ≠ [])

/-- Python `int(s)` on an unsigned decimal digit string (None = ValueError). -/
def parseDigits? (s : List Char) : Option Nat :=
  if s ≠ [] ∧ s.all Char.isDigit
  then some (s.foldl (fun a c => a * 10 + (c.toNat - 48)) 0)
  else none

/-- Python `int(s)` with an optional sign (None = ValueError). -/
def parseInt? (s : List Char) : Option Int :=
  match s with
  | '-' :: rest => (parseDigits? rest).map (fun n => -(n : Int))
  | '+' :: rest => (parseDigits? rest).map (fun n => (n : Int))
  | _ => (parseDigits? s).map (fun n => (n : Int))

/-- Errors raised while loading (Python exception classes). -/
inductive LErr where
  | indexError
  | valueError
  | unexpectedEof
  deriving Repr, DecidableEq

/-- The slice of the flopy model object that mfzon.py touches: grid
dimensions, the list of registered packages (`add_package`), and the
pop-key list of external-file unit numbers (`add_pop_key_list`). -/
structure Model where
  nrow : Nat
  ncol : Nat
  nlay : Nat
  nper : Nat
  packages : List String
  pop_key_list : List Nat
  deriving Repr, DecidableEq

/-- `model.get_nrow_ncol_nlay_nper()`. -/
def Model.get_nrow_ncol_nlay_nper (m : Model) : Nat × Nat × Nat × Nat :=
  (m.nrow, m.ncol, m.nlay, m.nper)

/-- `model.add_package(p)`: registers a package (recorded by name). -/
def Model.add_package (m : Model) (pname : String) : Model :=
  { m with packages := m.packages ++ [pname] }

/-- `model.add_pop_key_list(key)`. -/
def Model.add_pop_key_list (m : Model) (key : Nat) : Model :=
  { m with pop_key_list := m.pop_key_list ++ [key] }

/-- Array payload of a Util2d object. -/
inductive ArrData where
  | cnst (v : Int)
  | internal (rows : List (List Int))
  deriving Repr, DecidableEq

/-- The slice of a flopy Util2d object that mfzon.py uses. -/
structure Util2d where
  shape : Option Nat × Option Nat
  data : ArrData
  locat : Option Nat
  deriving Repr, DecidableEq

/-- Row of an INTERNAL array: exactly `c` integer tokens. -/
def readRow (c : Nat) (l : Line) : Option (List Int) :=
  let ts := tokens l
  if ts.length = c then ts.mapM parseInt? else none

/-- Read `r` rows of `c` integers each. -/
def readRows : Nat → Nat → List Line → Option (List (List Int) × List Line)
  | 0, _, ls => some ([], ls)
  | _ + 1, _, [] => none
  | r + 1, c, l :: ls =>
    match readRow c l with
    | none => none
    | some row => (readRows r c ls).map (fun p => (row :: p.1, p.2))

/-- Modelled from the spec: `Util2d.load` (flopy.utils.Util2d, whose source is
not under src/) reads one MODFLOW 2-D array from the open file, following the
spec's "structured text files following a fixed domain-specific grammar
(blocks, keywords, record arrays)".  Free-format control records are
modelled: `CONSTANT v` (no data lines follow), `INTERNAL` followed by nrow
rows of ncol integers, and `EXTERNAL unit` (array kept in an external file,
whose unit number becomes `locat`); control words are case-insensitive. -/
def Util2d.load (ls : List Line) (shape : Option Nat × Option Nat) :
    Except LErr (Util2d × List Line) :=
  match ls with
  | [] => .error .unexpectedEof
  | l :: rest =>
    match tokens l with
    | [] => .error .valueError
    | t0 :: targs =>
      let cw := t0.map Char.toLower
      if cw = "constant".toList then
        match targs.head? >>= parseInt? with
        | some v => .ok ({ shape := shape, data := .cnst v, locat := none }, rest)
        | none => .error .valueError
      else if cw = "internal".toList then
        match shape with
        | (some r, some c) =>
          match readRows r c rest with
          | some (rows, rest') =>
            .ok ({ shape := shape, data := .internal rows, locat := none }, rest')
          | none => .error .valueError
        | _ => .error .valueError
      else if cw = "external".toList then
        match targs.head? >>= parseDigits? with
        | some u => .ok ({ shape := shape, data := .internal [], locat := some u }, rest)
        | none => .error .valueError
      else .error .valueError

/-- The zone dictionary: a Python OrderedDict from zone name to Util2d. -/
abbrev ZoneDict := List (Line × Util2d)

/-- Python OrderedDict assignment `d[k] = v`: replaces the value in place when
the key is present (keeping its position), else appends at the end. -/
def odSet (d : ZoneDict) (k : Line) (v : Util2d) : ZoneDict :=
  if k ∈ d.map Prod.fst
  then d.map (fun p => if p.1 = k then (k, v) else p)
  else d ++ [(k, v)]

/-- The ModflowZon package object (mfzon.py).  `zone_dict = none` models the
attribute never having been assigned (the `zone_dict is None` branch of
`__init__` skips the assignment, so attribute access fails). -/
structure ModflowZon where
  pname : String
  extension : String
  unitnumber : Nat
  heading : String
  url : String
  nzn : Nat
  zone_dict : Option ZoneDict
  deriving Repr, DecidableEq

/-- `ModflowZon.__init__(model, zone_dict, extension, unitnumber)`: sets the
attributes (nzn = len(zone_dict) when zone_dict is not None, else nzn = 0 and
no zone_dict attribute), then calls `self.parent.add_package(self)`.  Returns
the package and the updated model. -/
def ModflowZon.init (model : Model) (zone_dict : Option ZoneDict)
    (extension : String) (unitnumber : Nat) : ModflowZon × Model :=
  let pkg : ModflowZon :=
    { pname := "ZONE"
      extension := extension
      unitnumber := unitnumber
      heading := "# ZONE for MODFLOW, generated by Flopy."
      url := "zon.htm"
      nzn := match zone_dict with
             | some d => d.length
             | none => 0
      zone_dict := zone_dict }
  (pkg, model.add_package "ZONE")

/-- `ModflowZon.write_file(self)`: the body is `pass` (docstring: "Not
implemented because parameters are only supported on load").  Modelled as the
list of lines written to the package file, which is empty. -/
def ModflowZon.write_file (_self : ModflowZon) : List Line := []

/-- Dataset 0 of `ModflowZon.load`: `while True: line = f.readline(); if
line[0] != '#': break`.  At end of file readline returns the empty string and
`line[0]` raises IndexError; a mid-file line always carries its newline
character, so on a (newline-stripped) empty line the loop breaks (the first
character read by Python is the newline, which is not '#'). -/
def skipComments : List Line → Except LErr (Line × List Line)
  | [] => .error .indexError
  | l :: ls =>
    match l with
    | [] => .ok ([], ls)
    | c :: _ => if c = '#' then skipComments ls else .ok (l, ls)

/-- Lines 146-148 of mfzon.py: `if nrow is None and ncol is None: nrow, ncol,
nlay, nper = model.get_nrow_ncol_nlay_nper()`.  The shape handed to
Util2d.load. -/
def resolveShape (nrow ncol : Option Nat) (m : Model) : Option Nat × Option Nat :=
  if nrow = none ∧ ncol = none then
    let (r, c, _, _) := m.get_nrow_ncol_nlay_nper
    (some r, some c)
  else (nrow, ncol)

/-- The zone-name transformation applied to the first token `t[0]` of a zone
entry line: `t[0][0:10].lower()` when longer than 10 characters, else
`t[0].lower()`. -/
def zonnamOf (w : Line) : Line :=
  if w.length > 10 then (w.take 10).map Char.toLower else w.map Char.toLower

/-- The `for n in range(nzn)` loop of `ModflowZon.load`: reads a zone-name
line (`t[0]` of an empty token list raises IndexError; readline at end of
file returns the empty string, whose token list is empty), loads the zone
array with Util2d.load, records an external unit number via
`model.add_pop_key_list`, and stores the array under the transformed name. -/
def ModflowZon.readZones :
    Nat → List Line → Model → (Option Nat × Option Nat) → ZoneDict →
    Except (LErr × Model) (ZoneDict × Model × List Line)
  | 0, ls, m, _, acc => .ok (acc, m, ls)
  | k + 1, ls, m, sh, acc =>
    match ls with
    | [] => .error (.indexError, m)
    | l :: ls' =>
      match (tokens l).head? with
      | none => .error (.indexError, m)
      | some w =>
        match Util2d.load ls' sh with
        | .error e => .error (e, m)
        | .ok (t, rest) =>
          let m' := match t.locat with
                    | some u => m.add_pop_key_list u
                    | none => m
          ModflowZon.readZones k rest m' sh (odSet acc (zonnamOf w) t)

/-- `ModflowZon.load(f, model, nrow, ncol)`: skips the dataset-0 comment
header, parses `nzn = int(t[0])` from dataset 1, resolves the array shape,
reads the nzn zones, and only then constructs the package (which registers
itself with the model).  Negative nzn gives an empty `range(nzn)`.  The
error value carries the model state at the point of raising. -/
def ModflowZon.load (lines : List Line) (model : Model) (nrow ncol : Option Nat) :
    Except (LErr × Model) (ModflowZon × Model) :=
  match skipComments lines with
  | .error e => .error (e, model)
  | .ok (line, rest) =>
    match (tokens line).head? with
    | none => .error (.indexError, model)
    | some t0 =>
      match parseInt? t0 with
      | none => .error (.valueError, model)
      | some nzn =>
        let sh := resolveShape nrow ncol model
        match ModflowZon.readZones nzn.toNat rest model sh [] with
        | .error em => .error em
        | .ok (zone_dict, m', _) =>
          .ok (ModflowZon.init m' (some zone_dict) "zon" 1001)

/-- Modelled from the spec: the ZoneBudget query methods (`get_records`,
`get_mass_balance`, `get_total_outflow`, `get_total_inflow`,
`get_percent_error`; flopy.utils.ZoneBudget is not under src/) return record
arrays.  The test functions of autotest/t035_test.py consult only the row
count `recs.shape[0]`, so a query result is abstracted as its number of
rows. -/
abbrev RecArray := Nat

/-- `test_zonbud_budget` (autotest/t035_test.py, lines 38-50): checks the
result of `get_records()` and then of `get_records(recordlist, zones)`,
raising `Exception('No records returned.')` whenever the checked result has
zero rows. -/
def test_zonbud_budget (records_all records_filtered : RecArray) :
    Except String Unit :=
  if records_all = 0 then .error "No records returned."
  else if records_filtered = 0 then .error "No records returned."
  else .ok ()

/-- `test_zonbud_mass_balance` (autotest/t035_test.py, lines 53-70): checks
the results of `get_mass_balance()`, `get_total_outflow(zones=3)`,
`get_total_inflow(zones=(1, 2))` and `get_percent_error()` in turn. -/
def test_zonbud_mass_balance
    (mass_balance total_outflow total_inflow percent_error : RecArray) :
    Except String Unit :=
  if mass_balance = 0 then .error "No records returned."
  else if total_outflow = 0 then .error "No records returned."
  else if total_inflow = 0 then .error "No records returned."
  else if percent_error = 0 then .error "No records returned."
  else .ok ()

/-- `test_zonbud_aliases` (autotest/t035_test.py, lines 73-89): checks the
first `get_records()` result, but the second `get_records(recordlist, zones)`
result (line 86) is only printed and never checked for zero rows. -/
def test_zonbud_aliases (records_all _records_filtered : RecArray) :
    Except String Unit :=
  if records_all = 0 then .error "No records returned."
  else .ok ()

/-- The `dfn` class attribute of ModflowGwfriv (flopy/mf6/modflow/mfgwfriv.py,
lines 103-163), transcribed verbatim. -/
def dfn : List (List String) :=
  [["block options", "name auxiliary", "type string",
    "shape (naux)", "reader urword", "optional true"],
   ["block options", "name auxmultname", "type string", "shape",
    "reader urword", "optional true"],
   ["block options", "name boundnames", "type keyword", "shape",
    "reader urword", "optional true"],
   ["block options", "name print_input", "type keyword",
    "reader urword", "optional true"],
   ["block options", "name print_flows", "type keyword",
    "reader urword", "optional true"],
   ["block options", "name save_flows", "type keyword",
    "reader urword", "optional true"],
   ["block options", "name ts_filerecord",
    "type record ts6 filein ts6_filename", "shape", "reader urword",
    "tagged true", "optional true"],
   ["block options", "name ts6", "type keyword", "shape",
    "in_record true", "reader urword", "tagged true",
    "optional false"],
   ["block options", "name filein", "type keyword", "shape",
    "in_record true", "reader urword", "tagged true",
    "optional false"],
   ["block options", "name ts6_filename", "type string",
    "preserve_case true", "in_record true", "reader urword",
    "optional false", "tagged false"],
   ["block options", "name obs_filerecord",
    "type record obs6 filein obs6_filename", "shape", "reader urword",
    "tagged true", "optional true"],
   ["block options", "name obs6", "type keyword", "shape",
    "in_record true", "reader urword", "tagged true",
    "optional false"],
   ["block options", "name obs6_filename", "type string",
    "preserve_case true", "in_record true", "tagged false",
    "reader urword", "optional false"],
   ["block options", "name mover", "type keyword", "tagged true",
    "reader urword", "optional true"],
   ["block dimensions", "name maxbound", "type integer",
    "reader urword", "optional false"],
   ["block period", "name iper", "type integer",
    "block_variable True", "in_record true", "tagged false", "shape",
    "valid", "reader urword", "optional false"],
   ["block period", "name periodrecarray",
    "type recarray cellid stage cond rbot aux boundname",
    "shape (maxbound)", "reader urword"],
   ["block period", "name cellid", "type integer",
    "shape (ncelldim)", "tagged false", "in_record true",
    "reader urword"],
   ["block period", "name stage", "type double precision", "shape",
    "tagged false", "in_record true", "reader urword",
    "time_series true"],
   ["block period", "name cond", "type double precision", "shape",
    "tagged false", "in_record true", "reader urword",
    "time_series true"],
   ["block period", "name rbot", "type double precision", "shape",
    "tagged false", "in_record true", "reader urword",
    "time_series true"],
   ["block period", "name aux", "type double precision",
    "in_record true", "tagged false", "shape (naux)", "reader urword",
    "optional true", "time_series true"],
   ["block period", "name boundname", "type string", "shape",
    "tagged false", "in_record true", "reader urword",
    "optional true"]]

/-- A dfn field string that assigns the variable to a block: "block X". -/
def isBlockField (s : String) : Bool :=
  List.isPrefixOf "block ".toList s.toList

/-! ## Sample objects used by counterexamples and witnesses -/

/-- A concrete model with a 1 x 1 grid and no registered packages. -/
def mDemo : Model :=
  { nrow := 1, ncol := 1, nlay := 1, nper := 1, packages := [], pop_key_list := [] }

/-- A concrete non-empty zone dictionary. -/
def zdDemo : ZoneDict :=
  [("zone1".toList, { shape := (some 1, some 1), data := .cnst 1, locat := none })]

/-- A concrete ModflowZon package holding `zdDemo`. -/
def pkgDemo : ModflowZon := (ModflowZon.init mDemo (some zdDemo) "zon" 1001).1

/-! ## Theorems -/

/-- C4 counterexample: a concrete ModflowZon instance whose zone_dict is
present and non-empty, for which write_file writes no content at all —
refuting the claim that write_file writes the package's text input file. -/
theorem write_file_cex :
    pkgDemo.zone_dict = some zdDemo ∧ zdDemo ≠ [] ∧ pkgDemo.write_file = [] := by
  refine ⟨rfl, by decide, rfl⟩

/-- C4 (amended): for every ModflowZon instance, write_file is a no-op: it
writes no content (its docstring: "Not implemented because parameters are
only supported on load") and returns None. -/
theorem write_file_writes_nothing (p : ModflowZon) : p.write_file = [] := rfl

/-- C1 counterexample: a concrete ModflowZon with a non-empty zone_dict whose
write_file output, re-read with ModflowZon.load, raises instead of yielding
an equivalent zone_dict — refuting the round-trip claim. -/
theorem roundtrip_cex :
    pkgDemo.zone_dict = some zdDemo ∧ zdDemo ≠ []
    ∧ ModflowZon.load pkgDemo.write_file mDemo none none
        = .error (.indexError, mDemo) := by
  refine ⟨rfl, by decide, rfl⟩

/-- C1 (amended): for every ModflowZon holding a non-empty zone_dict,
write_file produces no file content, and re-reading that output with
ModflowZon.load raises (IndexError on reading past the end of the empty
file) rather than yielding an equivalent zone_dict. -/
theorem roundtrip_amended (p : ModflowZon) (m : Model)
    (_h : ∃ d, p.zone_dict = some d ∧ d ≠ []) :
    p.write_file = [] ∧
    ModflowZon.load p.write_file m none none = .error (.indexError, m) :=
  ⟨rfl, rfl⟩

/-- Witness for `roundtrip_amended` at the concrete package `pkgDemo`. -/
theorem roundtrip_amended_witness :
    pkgDemo.write_file = [] ∧
    ModflowZon.load pkgDemo.write_file mDemo none none
      = .error (.indexError, mDemo) :=
  roundtrip_amended pkgDemo mDemo ⟨zdDemo, rfl, by decide⟩

/-- C3 counterexample: in test_zonbud_aliases the second get_records query
returns a record array with zero rows (second argument 0), yet the function
completes without raising `Exception('No records returned.')`. -/
theorem zonbud_aliases_unchecked_cex :
    test_zonbud_aliases 1 0 = .ok ()
    ∧ test_zonbud_aliases 1 0 ≠ Except.error "No records returned." := by
  exact ⟨rfl, by simp [test_zonbud_aliases]⟩

/-- C3 (amended): test_zonbud_budget and test_zonbud_mass_balance raise
`Exception('No records returned.')` exactly when one of their checked
queries returns a record array with zero rows, and otherwise return without
any recovery or retry; test_zonbud_aliases checks only its first get_records
result — the second get_records result is printed without a zero-row
check, so an empty result there does not raise. -/
theorem zonbud_tests_raise_iff (r1 r2 b1 b2 b3 b4 a1 a2 : RecArray) :
    (test_zonbud_budget r1 r2 = .error "No records returned."
      ↔ r1 = 0 ∨ r2 = 0)
    ∧ (test_zonbud_budget r1 r2 = .ok () ↔ ¬(r1 = 0 ∨ r2 = 0))
    ∧ (test_zonbud_mass_balance b1 b2 b3 b4 = .error "No records returned."
      ↔ b1 = 0 ∨ b2 = 0 ∨ b3 = 0 ∨ b4 = 0)
    ∧ (test_zonbud_mass_balance b1 b2 b3 b4 = .ok ()
      ↔ ¬(b1 = 0 ∨ b2 = 0 ∨ b3 = 0 ∨ b4 = 0))
    ∧ (test_zonbud_aliases a1 a2 = .error "No records returned." ↔ a1 = 0) := by
  unfold test_zonbud_budget test_zonbud_mass_balance test_zonbud_aliases
  refine ⟨?_, ?_, ?_, ?_, ?_⟩ <;> split_ifs <;> simp_all

/-- C8: ModflowZon.load computes the shape handed to Util2d.load as
`resolveShape nrow ncol model`; the model's dimensions are consulted only
when both nrow and ncol are None.  When exactly one of them is passed the
other stays None and the result does not depend on the model (no model
lookup), so the zone arrays are loaded with a partially unspecified
shape. -/
theorem resolveShape_spec (r c : Nat) (m mAlt : Model) :
    resolveShape (some r) none m = (some r, none)
    ∧ resolveShape none (some c) m = (none, some c)
    ∧ resolveShape (some r) none m = resolveShape (some r) none mAlt
    ∧ resolveShape none (some c) m = resolveShape none (some c) mAlt
    ∧ resolveShape none none m = (some m.nrow, some m.ncol) := by
  refine ⟨?_, ?_, ?_, ?_, ?_⟩ <;>
    simp [resolveShape, Model.get_nrow_ncol_nlay_nper]

/-- C9: after ModflowZon.__init__, nzn = len(zone_dict) when zone_dict is not
None; when zone_dict is None, nzn = 0 and the zone_dict attribute is never
assigned (modelled as the field being none); in every case the package is
registered with the model via parent.add_package. -/
theorem ModflowZon_init_spec (m : Model) (zd : ZoneDict) (ext : String) (un : Nat) :
    ((ModflowZon.init m (some zd) ext un).1.nzn = zd.length)
    ∧ ((ModflowZon.init m (some zd) ext un).1.zone_dict = some zd)
    ∧ ((ModflowZon.init m none ext un).1.nzn = 0)
    ∧ ((ModflowZon.init m none ext un).1.zone_dict = none)
    ∧ (∀ ozd : Option ZoneDict,
        (ModflowZon.init m ozd ext un).2.packages = m.packages ++ ["ZONE"]) :=
  ⟨rfl, rfl, rfl, rfl, fun _ => rfl⟩

/-- C6: every entry of the ModflowGwfriv dfn table assigns its variable to
exactly one block, and that block is one of options, dimensions, period; the
period block's periodrecarray is declared with shape (maxbound); and
maxbound is declared with type integer in the dimensions block. -/
theorem dfn_fixed_grammar :
    (∀ e ∈ dfn, e.filter isBlockField ∈
        ([["block options"], ["block dimensions"], ["block period"]]
          : List (List String)))
    ∧ (∃ e ∈ dfn,
        "block period" ∈ e ∧ "name periodrecarray" ∈ e ∧ "shape (maxbound)" ∈ e)
    ∧ (∃ e ∈ dfn,
        "block dimensions" ∈ e ∧ "name maxbound" ∈ e ∧ "type integer" ∈ e) := by
  decide

/-- add_pop_key_list does not touch the package list. -/
theorem add_pop_key_list_packages (m : Model) (u : Nat) :
    (m.add_pop_key_list u).packages = m.packages := rfl

/-- The zone-reading loop never registers a package: when it raises, the
model state carried by the error has the packages of the entry state. -/
theorem readZones_error_packages :
    ∀ (k : Nat) (ls : List Line) (m : Model) (sh : Option Nat × Option Nat)
      (acc : ZoneDict) (e : LErr) (m' : Model),
      ModflowZon.readZones k ls m sh acc = .error (e, m') →
      m'.packages = m.packages := by
  intro k
  induction k with
  | zero =>
    intro ls m sh acc e m' h
    simp [ModflowZon.readZones] at h
  | succ n ih =>
    intro ls m sh acc e m' h
    unfold ModflowZon.readZones at h
    split at h
    · simp only [Except.error.injEq, Prod.mk.injEq] at h
      rw [← h.2]
    · split at h
      · simp only [Except.error.injEq, Prod.mk.injEq] at h
        rw [← h.2]
      · split at h
        · simp only [Except.error.injEq, Prod.mk.injEq] at h
          rw [← h.2]
        · rw [ih _ _ _ _ _ _ h]
          split <;> rfl

/-- C5: if ModflowZon.load raises while parsing a malformed zone file, no
ModflowZon package has been constructed or added to the model: the model
state carried by the error has exactly the packages of the input model,
because the package object is created (and registered via add_package) only
after all zone records are read successfully. -/
theorem load_error_no_package (lines : List Line) (m : Model)
    (nrow ncol : Option Nat) (e : LErr) (m' : Model)
    (h : ModflowZon.load lines m nrow ncol = .error (e, m')) :
    m'.packages = m.packages := by
  unfold ModflowZon.load at h
  split at h
  · simp only [Except.error.injEq, Prod.mk.injEq] at h
    rw [← h.2]
  · split at h
    · simp only [Except.error.injEq, Prod.mk.injEq] at h
      rw [← h.2]
    · split at h
      · simp only [Except.error.injEq, Prod.mk.injEq] at h
        rw [← h.2]
      · dsimp only at h
        split at h
        · rename_i em heq
          have hem : em = (e, m') := by injection h
          rw [hem] at heq
          exact readZones_error_packages _ _ _ _ _ _ _ heq
        · exact absurd h (by simp)

/-- A concrete model that already holds a package. -/
def mWit5 : Model :=
  { nrow := 2, ncol := 3, nlay := 1, nper := 1,
    packages := ["DIS"], pop_key_list := [] }

/-- Witness for `load_error_no_package`: a malformed zone file whose first
non-comment line does not begin with an integer makes load raise, and the
model still holds exactly its original package. -/
theorem load_error_no_package_witness :
    ModflowZon.load ["abc".toList] mWit5 none none
      = .error (.valueError, mWit5)
    ∧ mWit5.packages = mWit5.packages :=
  ⟨rfl, load_error_no_package ["abc".toList] mWit5 none none
    .valueError mWit5 rfl⟩

/-- Char.ofNat evaluates to the given (valid) code point. -/
theorem toNat_ofNat_valid (n : Nat) (h : n.isValidChar) :
    (Char.ofNat n).toNat = n := by
  simp only [Char.ofNat, h, dif_pos, Char.toNat, Char.ofNatAux]
  rfl

/-- Char.toLower is idempotent. -/
theorem toLower_idem (c : Char) : c.toLower.toLower = c.toLower := by
  unfold Char.toLower
  by_cases h : c.toNat ≥ 65 ∧ c.toNat ≤ 90
  · rw [if_pos h]
    have hv : (c.toNat + 32).isValidChar := by
      left
      omega
    have ht : (Char.ofNat (c.toNat + 32)).toNat = c.toNat + 32 :=
      toNat_ofNat_valid _ hv
    rw [ht]
    rw [if_neg (by omega)]
  · rw [if_neg h, if_neg h]

/-- The zone-name transformation always yields a lowercase name of at most
10 characters. -/
theorem zonnamOf_short_lower (w : Line) :
    (zonnamOf w).length ≤ 10 ∧ (zonnamOf w).map Char.toLower = zonnamOf w := by
  unfold zonnamOf
  split
  · refine ⟨?_, ?_⟩
    · simp only [List.length_map, List.length_take]
      omega
    · rw [List.map_map]
      exact List.map_congr_left fun c _ => toLower_idem c
  · refine ⟨?_, ?_⟩
    · simp only [List.length_map]
      omega
    · rw [List.map_map]
      exact List.map_congr_left fun c _ => toLower_idem c

/-- A key of `odSet d k v` is a key of `d` or is `k`. -/
theorem odSet_mem_keys (d : ZoneDict) (k : Line) (v : Util2d) (key : Line)
    (h : key ∈ (odSet d k v).map Prod.fst) :
    key ∈ d.map Prod.fst ∨ key = k := by
  unfold odSet at h
  split at h
  · simp only [List.map_map, List.mem_map, Function.comp] at h
    obtain ⟨p, hp, hkey⟩ := h
    by_cases hpk : p.1 = k
    · right
      rw [if_pos hpk] at hkey
      exact hkey.symm
    · left
      rw [if_neg hpk] at hkey
      exact List.mem_map.mpr ⟨p, hp, hkey⟩
  · rw [List.map_append, List.mem_append] at h
    rcases h with h | h
    · exact Or.inl h
    · right
      simpa using h

/-- Every key produced by the zone-reading loop is lowercase and at most 10
characters long, provided the keys accumulated so far are. -/
theorem readZones_keys_short_lower :
    ∀ (k : Nat) (ls : List Line) (m : Model) (sh : Option Nat × Option Nat)
      (acc : ZoneDict) (d : ZoneDict) (m' : Model) (rest : List Line),
      ModflowZon.readZones k ls m sh acc = .ok (d, m', rest) →
      (∀ key ∈ acc.map Prod.fst,
        key.length ≤ 10 ∧ key.map Char.toLower = key) →
      ∀ key ∈ d.map Prod.fst, key.length ≤ 10 ∧ key.map Char.toLower = key := by
  intro k
  induction k with
  | zero =>
    intro ls m sh acc d m' rest h hacc
    simp only [ModflowZon.readZones, Except.ok.injEq, Prod.mk.injEq] at h
    rw [← h.1]
    exact hacc
  | succ n ih =>
    intro ls m sh acc d m' rest h hacc
    unfold ModflowZon.readZones at h
    split at h
    · exact absurd h (by simp)
    · split at h
      · exact absurd h (by simp)
      · split at h
        · exact absurd h (by simp)
        · rename_i w _ t rest2 _
          refine ih _ _ _ _ _ _ _ h ?_
          intro key hkey
          rcases odSet_mem_keys _ _ _ _ hkey with hin | hk
          · exact hacc key hin
          · rw [hk]
            exact zonnamOf_short_lower _

/-- C7: every key of the zone_dict returned by a successful ModflowZon.load
is a lowercase string of length at most 10; and a first token longer than 10
characters is truncated to its first 10 characters before lowercasing. -/
theorem load_keys_short_lower (lines : List Line) (m : Model)
    (nrow ncol : Option Nat) (pkg : ModflowZon) (m' : Model)
    (h : ModflowZon.load lines m nrow ncol = .ok (pkg, m'))
    (d : ZoneDict) (hd : pkg.zone_dict = some d) :
    (∀ key ∈ d.map Prod.fst, key.length ≤ 10 ∧ key.map Char.toLower = key)
    ∧ (∀ w : Line, w.length > 10 →
        zonnamOf w = (w.take 10).map Char.toLower) := by
  refine ⟨?_, fun w hw => by rw [zonnamOf, if_pos hw]⟩
  unfold ModflowZon.load at h
  split at h
  · exact absurd h (by simp)
  · split at h
    · exact absurd h (by simp)
    · split at h
      · exact absurd h (by simp)
      · dsimp only at h
        split at h
        · exact absurd h (by simp)
        · rename_i zd m2 rest heq
          simp only [Except.ok.injEq] at h
          have hpkg : pkg = (ModflowZon.init m2 (some zd) "zon" 1001).1 := by
            rw [h]
          have hzd : pkg.zone_dict = some zd := by
            rw [hpkg]
            rfl
          rw [hzd] at hd
          injection hd with hd
          rw [← hd]
          exact readZones_keys_short_lower _ _ _ _ _ _ _ _ heq (by simp)

/-- The lines of a small zone file with one zone whose name is longer than
10 characters. -/
def linesWit7 : List Line :=
  ["1".toList, "LongZoneName1".toList, "CONSTANT 5".toList]

/-- The zone dictionary that loading `linesWit7` produces. -/
def dWit7 : ZoneDict :=
  [("longzonena".toList,
    { shape := (some 1, some 1), data := .cnst 5, locat := none })]

/-- The package that loading `linesWit7` produces. -/
def pkgWit7 : ModflowZon := (ModflowZon.init mDemo (some dWit7) "zon" 1001).1

/-- Witness for `load_keys_short_lower` on the concrete file `linesWit7`:
the loaded key is the lowercase 10-character truncation of LongZoneName1. -/
theorem load_keys_short_lower_witness :
    ("longzonena".toList).length ≤ 10
    ∧ ("longzonena".toList).map Char.toLower = "longzonena".toList :=
  (load_keys_short_lower linesWit7 mDemo none none pkgWit7
      (mDemo.add_package "ZONE") rfl dWit7 rfl).1
    ("longzonena".toList) (by simp [dWit7])

/-- A zone entry of a zone file: its name line and the lines of its array
record. -/
abbrev ZEntry := Line × List Line

/-- The concatenated lines of a list of zone entries. -/
def entryLines (entries : List ZEntry) : List Line :=
  (entries.map (fun e => e.1 :: e.2)).flatten

/-- The zone_dict key arising from a zone-entry name line. -/
def keyOfName (l : Line) : Line := zonnamOf ((tokens l).headD [])

/-- OrderedDict assignment with a fresh key appends the pair. -/
theorem odSet_not_mem (d : ZoneDict) (k : Line) (v : Util2d)
    (h : k ∉ d.map Prod.fst) : odSet d k v = d ++ [(k, v)] := by
  unfold odSet
  rw [if_neg h]

/-- A well-formed array record for shape `sh`, covering the whole grammar of
the modelled Util2d.load: a one-line CONSTANT record, an INTERNAL control
line followed by nrow rows of ncol integers, or a one-line EXTERNAL
record. -/
def isArrBlock (sh : Option Nat × Option Nat) (block : List Line) : Bool :=
  match block with
  | [] => false
  | l :: rest =>
    match tokens l with
    | [] => false
    | t0 :: targs =>
      if t0.map Char.toLower = "constant".toList then
        decide (rest = []) && (targs.head? >>= parseInt?).isSome
      else if t0.map Char.toLower = "internal".toList then
        match sh with
        | (some r, some c) =>
          decide (rest.length = r)
            && rest.all (fun row => (readRow c row).isSome)
        | _ => false
      else if t0.map Char.toLower = "external".toList then
        decide (rest = []) && (targs.head? >>= parseDigits?).isSome
      else false

/-- Rows that each parse as exactly `c` integers are consumed one-for-one by
readRows, which stops exactly at their end. -/
theorem readRows_exact (c : Nat) :
    ∀ (rows : List Line) (ls : List Line),
      (∀ row ∈ rows, (readRow c row).isSome = true) →
      ∃ vals, readRows rows.length c (rows ++ ls) = some (vals, ls) := by
  intro rows
  induction rows with
  | nil =>
    intro ls _
    exact ⟨[], rfl⟩
  | cons row rows ih =>
    intro ls hall
    obtain ⟨v, hv⟩ := Option.isSome_iff_exists.mp (hall row (by simp))
    obtain ⟨vals, hvals⟩ := ih ls (fun x hx => hall x (by simp [hx]))
    refine ⟨v :: vals, ?_⟩
    simp [readRows, hv, hvals]

/-- Every well-formed array record is read by Util2d.load as one complete
record, stopping exactly at its end whatever lines follow. -/
theorem Util2d_load_block (sh : Option Nat × Option Nat) (block : List Line)
    (h : isArrBlock sh block = true) (ls : List Line) :
    ∃ arr, Util2d.load (block ++ ls) sh = .ok (arr, ls) := by
  unfold isArrBlock at h
  cases block with
  | nil => exact absurd h (by simp)
  | cons l rest =>
    dsimp only at h
    cases htk : tokens l with
    | nil =>
      rw [htk] at h
      exact absurd h (by simp)
    | cons t0 targs =>
      rw [htk] at h
      dsimp only at h
      by_cases h1 : t0.map Char.toLower = "constant".toList
      · rw [if_pos h1] at h
        simp only [Bool.and_eq_true, decide_eq_true_eq,
          Option.isSome_iff_exists] at h
        obtain ⟨hrest, v, hv⟩ := h
        subst hrest
        refine ⟨{ shape := sh, data := .cnst v, locat := none }, ?_⟩
        simp only [List.cons_append, List.nil_append, Util2d.load, htk]
        rw [if_pos h1, hv]
      · rw [if_neg h1] at h
        by_cases h2 : t0.map Char.toLower = "internal".toList
        · rw [if_pos h2] at h
          obtain ⟨o1, o2⟩ := sh
          cases o1 with
          | none => exact absurd h (by simp)
          | some r =>
            cases o2 with
            | none => exact absurd h (by simp)
            | some c =>
              simp only [Bool.and_eq_true, decide_eq_true_eq,
                List.all_eq_true] at h
              obtain ⟨hlen, hall⟩ := h
              obtain ⟨vals, hvals⟩ := readRows_exact c rest ls hall
              refine ⟨{ shape := (some r, some c), data := .internal vals, locat := none }, ?_⟩
              simp only [List.cons_append, Util2d.load, htk]
              rw [if_neg h1, if_pos h2, ← hlen, hvals]
        · rw [if_neg h2] at h
          by_cases h3 : t0.map Char.toLower = "external".toList
          · rw [if_pos h3] at h
            simp only [Bool.and_eq_true, decide_eq_true_eq,
              Option.isSome_iff_exists] at h
            obtain ⟨hrest, u, hu⟩ := h
            subst hrest
            refine ⟨{ shape := sh, data := .internal [], locat := some u }, ?_⟩
            simp only [List.cons_append, List.nil_append, Util2d.load, htk]
            rw [if_neg h1, if_neg h2, if_pos h3, hu]
          · rw [if_neg h3] at h
            exact absurd h (by simp)

/-- One iteration of the zone-reading loop on a name line followed by one
complete array record. -/
theorem readZones_cons_step (n : Nat) (l1 : Line) (ls : List Line)
    (m : Model) (sh : Option Nat × Option Nat) (acc : ZoneDict)
    (w : Line) (ws : List Line) (hw : tokens l1 = w :: ws)
    (arr : Util2d) (rest' : List Line)
    (hload : Util2d.load ls sh = .ok (arr, rest')) :
    ModflowZon.readZones (n + 1) (l1 :: ls) m sh acc
      = ModflowZon.readZones n rest'
          (match arr.locat with
            | some u => m.add_pop_key_list u
            | none => m) sh (odSet acc (zonnamOf w) arr) := by
  conv_lhs => rw [ModflowZon.readZones]
  simp only [hw, List.head?_cons, hload]

/-- The zone-reading loop on well-formed entries with fresh, pairwise-distinct
transformed names succeeds, stops exactly at the remaining lines, and appends
the transformed names, in order, to the accumulated keys. -/
theorem readZones_entries :
    ∀ (entries : List ZEntry) (tail : List Line) (m : Model)
      (sh : Option Nat × Option Nat) (acc : ZoneDict),
      (∀ e ∈ entries, tokens e.1 ≠ []) →
      (∀ e ∈ entries, isArrBlock sh e.2 = true) →
      (∀ e ∈ entries, keyOfName e.1 ∉ acc.map Prod.fst) →
      (entries.map (fun e => keyOfName e.1)).Nodup →
      ∃ d m',
        ModflowZon.readZones entries.length (entryLines entries ++ tail)
            m sh acc
          = .ok (d, m', tail)
        ∧ d.map Prod.fst
            = acc.map Prod.fst ++ entries.map (fun e => keyOfName e.1) := by
  intro entries
  induction entries with
  | nil =>
    intro tail m sh acc _ _ _ _
    exact ⟨acc, m, rfl, by simp⟩
  | cons e es ih =>
    intro tail m sh acc hname hblock hdisj hnodup
    have hn1 : tokens e.1 ≠ [] := hname e (by simp)
    obtain ⟨w, ws, hw⟩ : ∃ w ws, tokens e.1 = w :: ws := by
      cases htk : tokens e.1 with
      | nil => exact absurd htk hn1
      | cons a b => exact ⟨a, b, rfl⟩
    obtain ⟨arr, harr⟩ := Util2d_load_block sh e.2 (hblock e (by simp))
      (entryLines es ++ tail)
    have hkey : keyOfName e.1 = zonnamOf w := by
      rw [keyOfName, hw]
      rfl
    have hlines : entryLines (e :: es) ++ tail
        = e.1 :: (e.2 ++ (entryLines es ++ tail)) := by
      simp [entryLines]
    have hstep := readZones_cons_step es.length e.1
      (e.2 ++ (entryLines es ++ tail)) m sh acc w ws hw arr
      (entryLines es ++ tail) harr
    have hknot : zonnamOf w ∉ acc.map Prod.fst := by
      rw [← hkey]
      exact hdisj e (by simp)
    have hacc' : odSet acc (zonnamOf w) arr = acc ++ [(zonnamOf w, arr)] :=
      odSet_not_mem _ _ _ hknot
    rw [List.map_cons, List.nodup_cons] at hnodup
    obtain ⟨hnotin, hnodup'⟩ := hnodup
    obtain ⟨d, m2, hd, hkeys⟩ := ih tail
      (match arr.locat with
        | some u => m.add_pop_key_list u
        | none => m) sh
      (odSet acc (zonnamOf w) arr)
      (fun x hx => hname x (by simp [hx]))
      (fun x hx => hblock x (by simp [hx]))
      (by
        intro x hx
        rw [hacc', List.map_append, List.mem_append]
        rintro (hin | hin)
        · exact hdisj x (by simp [hx]) hin
        · simp only [List.map_cons, List.map_nil, List.mem_singleton] at hin
          rw [← hkey] at hin
          exact hnotin (hin ▸ List.mem_map_of_mem (fun y => keyOfName y.1) hx))
      hnodup'
    refine ⟨d, m2, ?_, ?_⟩
    · rw [hlines, List.length_cons, hstep, hd]
    · rw [hkeys, hacc']
      simp [hkey]

/-- skipComments passes over lines beginning with '#'. -/
theorem skipComments_comments (comments : List Line) (ls : List Line)
    (hcom : ∀ c ∈ comments, c.head? = some '#') :
    skipComments (comments ++ ls) = skipComments ls := by
  induction comments with
  | nil => rfl
  | cons c cs ih =>
    have hc : c.head? = some '#' := hcom c (by simp)
    cases c with
    | nil => simp at hc
    | cons a as =>
      simp only [List.head?_cons, Option.some.injEq] at hc
      subst hc
      simp only [List.cons_append, skipComments, if_pos rfl]
      exact ih (fun x hx => hcom x (by simp [hx]))

/-- C2: loading a well-formed zone file — a comment header, a first
non-comment line whose first token parses as the integer nzn = number of
entries, and nzn zone entries (a name line followed by one complete array
record: CONSTANT, INTERNAL or EXTERNAL) whose transformed names are pairwise
distinct — succeeds and returns a package whose zone_dict has exactly nzn
entries keyed by the transformed names in file order, and whose nzn
attribute equals that count. -/
theorem load_wellformed (comments : List Line) (nline : Line)
    (entries : List ZEntry) (m : Model)
    (hcom : ∀ c ∈ comments, c.head? = some '#')
    (hnc : nline.head? ≠ some '#')
    (hn : ∃ t0 ts, tokens nline = t0 :: ts
      ∧ parseInt? t0 = some (entries.length : Int))
    (hname : ∀ e ∈ entries, tokens e.1 ≠ [])
    (hblock : ∀ e ∈ entries,
      isArrBlock (some m.nrow, some m.ncol) e.2 = true)
    (hnodup : (entries.map (fun e => keyOfName e.1)).Nodup) :
    ∃ pkg m' d,
      ModflowZon.load (comments ++ nline :: entryLines entries) m none none
        = .ok (pkg, m')
      ∧ pkg.zone_dict = some d
      ∧ d.map Prod.fst = entries.map (fun e => keyOfName e.1)
      ∧ d.length = entries.length
      ∧ pkg.nzn = entries.length := by
  obtain ⟨t0, ts, htk, hpi⟩ := hn
  have hnempty : nline ≠ [] := by
    intro hnil
    rw [hnil, show tokens ([] : Line) = [] from rfl] at htk
    exact List.noConfusion htk
  obtain ⟨c, cs, hcc⟩ : ∃ c cs, nline = c :: cs := by
    cases nline with
    | nil => exact absurd rfl hnempty
    | cons a b => exact ⟨a, b, rfl⟩
  have hcne : c ≠ '#' := by
    intro heq
    rw [hcc, heq] at hnc
    exact hnc rfl
  have hskip : skipComments (comments ++ nline :: entryLines entries)
      = .ok (nline, entryLines entries) := by
    rw [skipComments_comments _ _ hcom, hcc]
    simp only [skipComments, if_neg hcne]
  have hsh : resolveShape none none m = (some m.nrow, some m.ncol) := by
    simp [resolveShape, Model.get_nrow_ncol_nlay_nper]
  obtain ⟨d, m2, hd, hkeys⟩ := readZones_entries entries [] m
    (some m.nrow, some m.ncol) [] hname hblock (by simp) hnodup
  rw [List.append_nil] at hd
  have hload : ModflowZon.load (comments ++ nline :: entryLines entries)
      m none none
      = .ok (ModflowZon.init m2 (some d) "zon" 1001) := by
    simp only [ModflowZon.load, hskip, htk, List.head?_cons, hpi,
      Int.toNat_natCast, hsh, hd]
  refine ⟨(ModflowZon.init m2 (some d) "zon" 1001).1,
    m2.add_package "ZONE", d, ?_, rfl, ?_, ?_, ?_⟩
  · rw [hload]
    rfl
  · rw [hkeys]
    simp
  · have hlen : (d.map Prod.fst).length
        = (entries.map (fun e => keyOfName e.1)).length := by
      rw [hkeys]
      simp
    simpa using hlen
  · show d.length = entries.length
    have hlen : (d.map Prod.fst).length
        = (entries.map (fun e => keyOfName e.1)).length := by
      rw [hkeys]
      simp
    simpa using hlen

/-- A concrete comment header. -/
def commentsWit2 : List Line := ["# zone file".toList]

/-- A concrete model with a 2 x 3 grid. -/
def mW2 : Model :=
  { nrow := 2, ncol := 3, nlay := 1, nper := 1,
    packages := [], pop_key_list := [] }

/-- Three concrete zone entries with distinct transformed names, exercising
all three array-record kinds: CONSTANT, INTERNAL (2 x 3 rows of integers)
and EXTERNAL. -/
def entriesWit2 : List ZEntry :=
  [("ZoneA".toList, ["CONSTANT 1".toList]),
   ("LongZoneNameB".toList,
     ["INTERNAL".toList, "1 2 3".toList, "4 5 6".toList]),
   ("C".toList, ["EXTERNAL 44".toList])]

/-- Witness for `load_wellformed` on a concrete three-zone file whose arrays
use the CONSTANT, INTERNAL and EXTERNAL record kinds. -/
theorem load_wellformed_witness :
    ∃ pkg m' d,
      ModflowZon.load
          (commentsWit2 ++ "3".toList :: entryLines entriesWit2) mW2 none none
        = .ok (pkg, m')
      ∧ pkg.zone_dict = some d
      ∧ d.map Prod.fst = entriesWit2.map (fun e => keyOfName e.1)
      ∧ d.length = entriesWit2.length
      ∧ pkg.nzn = entriesWit2.length :=
  load_wellformed commentsWit2 ("3".toList) entriesWit2 mW2
    (by decide) (by decide)
    ⟨['3'], [], by decide, by decide⟩
    (by decide) (by decide) (by decide)

end Flopy
